import Mathlib

/-!
Verification model of the FancyTracker Firefox extension.

The background script (tracking store, identity keys, deduplication,
blocklists, tab lifecycle), the popup storage module (blocklists,
import/export) and the content-script interception hook are embedded as
executable Lean definitions.  JavaScript strings are Lean `String`s,
JavaScript objects whose fields may be `undefined` use `Option` fields,
tab-keyed maps are functions `Int → Option _`, and a JS `Set` of strings
is a duplicate-free insertion-ordered `List String`.

Browser builtins are modelled where the scripts call them:
`new URL(u)` is modelled for the http/https scheme family and for
non-special schemes (an opaque path after `scheme:`, or an authority
after `scheme://`); a special scheme written without `//` (such as
`http:foo`) or a scheme containing upper-case letters is outside the
modelled fragment and treated as a parse failure, which the scripts
catch.  `new RegExp(p, "i")` is modelled for
literal patterns: a pattern without regex metacharacters compiles to a
case-insensitive substring matcher, and a pattern containing a
metacharacter is treated as failing to compile (as an unbalanced group
does in JS).  Host case-normalisation of the URL parser is omitted; it
does not affect any property stated below.
-/

/-- Tests whether the first list is an initial segment of the second. -/
def listStarts : List Char → List Char → Bool
  | [], _ => true
  | _ :: _, [] => false
  | a :: as, b :: bs => a == b && listStarts as bs

/-- Model of JS `String.prototype.includes` on char lists: the needle
occurs contiguously somewhere in the haystack. -/
def containsSub (needle : List Char) : List Char → Bool
  | [] => listStarts needle []
  | c :: cs => listStarts needle (c :: cs) || containsSub needle cs

/-- `hay.includes(sub)` for strings. -/
def containsSubStr (hay sub : String) : Bool := containsSub sub.data hay.data

/-- The characters of `"https://"`. -/
def httpsSchemeChars : List Char := "https://".data

/-- The characters of `"http://"`. -/
def httpSchemeChars : List Char := "http://".data

/-- Characters that terminate the authority component of a special URL. -/
def isAuthEnd (c : Char) : Bool := c == '/' || c == '?' || c == '#'

/-- The authority component: the characters after the scheme up to the
first `/`, `?` or `#`. -/
def urlAuth (rest : List Char) : List Char :=
  rest.takeWhile (fun c => !(isAuthEnd c))

/-- The characters from the end of the authority onwards. -/
def urlTail (rest : List Char) : List Char :=
  rest.dropWhile (fun c => !(isAuthEnd c))

/-- The hostname: the authority with userinfo (through the last `@`)
and a port (from the first `:`) removed. -/
def urlHost (rest : List Char) : List Char :=
  (((urlAuth rest).reverse.takeWhile (fun c => !(c == '@'))).reverse).takeWhile
    (fun c => !(c == ':'))

/-- The pathname: from the end of the authority up to the first `?` or
`#`, defaulting to `"/"`. -/
def urlPath (rest : List Char) : List Char :=
  if ((urlTail rest).takeWhile (fun c => !(c == '?') && !(c == '#'))).isEmpty then ['/']
  else (urlTail rest).takeWhile (fun c => !(c == '?') && !(c == '#'))

/-- Model of `new URL(s)` restricted to http/https, returning
`(protocol, hostname, pathname)` on success; an empty hostname is a
parse failure (a `TypeError` in JS). -/
def parseAfterScheme (proto : String) (rest : List Char) : Option (String × String × String) :=
  if (urlHost rest).isEmpty then none
  else some (proto, String.mk (urlHost rest), String.mk (urlPath rest))

/-- The http/https branches of the modelled URL parser. -/
def parseHttpUrl (s : String) : Option (String × String × String) :=
  if listStarts httpsSchemeChars s.data then parseAfterScheme "https:" (s.data.drop 8)
  else if listStarts httpSchemeChars s.data then parseAfterScheme "http:" (s.data.drop 7)
  else none

/-- A lower-case ASCII letter, the first character of a scheme. -/
def isSchemeStartChar (c : Char) : Bool := 'a' ≤ c && c ≤ 'z'

/-- A character allowed in a (lower-case) scheme. -/
def isSchemeChar (c : Char) : Bool :=
  ('a' ≤ c && c ≤ 'z') || c.isDigit || c == '+' || c == '-' || c == '.'

/-- The special schemes of the URL standard; their URLs take the
authority form, so a special scheme written without `//` is left
outside the modelled fragment (treated as a parse failure). -/
def specialSchemes : List String := ["http", "https", "ws", "wss", "ftp", "file"]

/-- Model of `new URL(s)` on a non-special scheme, as the URL standard
parses it: after `scheme://` an authority is read up to the first `/`,
`?` or `#` — userinfo through the last `@` and a port from the first
`:` are dropped, and an empty host is allowed — and the pathname runs
from the end of the authority to the first `?` or `#` (empty by
default); after `scheme:` without `//` the remainder up to the first
`?` or `#` is an opaque pathname and the hostname is empty. -/
def parseNonSpecialUrl (s : String) : Option (String × String × String) :=
  match s.data.takeWhile isSchemeChar, s.data.dropWhile isSchemeChar with
  | c :: scs, ':' :: rest =>
    if !(isSchemeStartChar c) then none
    else if specialSchemes.contains (String.mk (c :: scs)) then none
    else if listStarts ['/', '/'] rest then
      some (String.mk (c :: scs ++ [':']),
        String.mk ((((rest.drop 2).takeWhile
            (fun c => !(isAuthEnd c))).reverse.takeWhile
            (fun c => !(c == '@'))).reverse.takeWhile (fun c => !(c == ':'))),
        String.mk (((rest.drop 2).dropWhile
            (fun c => !(isAuthEnd c))).takeWhile (fun c => !(c == '?') && !(c == '#'))))
    else
      some (String.mk (c :: scs ++ [':']), "",
        String.mk (rest.takeWhile (fun c => !(c == '?') && !(c == '#'))))
  | _, _ => none

/-- Dispatch of the modelled `new URL(s)`: the http/https family first,
then the non-special-scheme fragment. -/
def parseJsUrl (s : String) : Option (String × String × String) :=
  if listStarts httpsSchemeChars s.data || listStarts httpSchemeChars s.data
  then parseHttpUrl s
  else parseNonSpecialUrl s

/-- `url.split("?")[0].split("#")[0]`: everything before the first `?`,
then everything before the first `#`. -/
def stripQueryHash (cs : List Char) : List Char :=
  (cs.takeWhile (fun c => !(c == '?'))).takeWhile (fun c => !(c == '#'))

/-- `cleanUrl` from the background script (byte-identical in
`PopupStorage.cleanUrl`): a falsy url is returned unchanged; a parseable
URL is rebuilt as `protocol + "//" + hostname + pathname`; on parse
failure the query string and fragment are cut off textually. -/
def cleanUrl (url : String) : String :=
  if url = "" then url
  else
    match parseJsUrl url with
    | some (proto, host, path) => proto ++ "//" ++ host ++ path
    | none => String.mk (stripQueryHash url.data)

/-- Consumes `https://` or `http://` at the head of the list, returning
the consumed characters and the remainder. -/
def schemeSplit (cs : List Char) : Option (List Char × List Char) :=
  if listStarts httpsSchemeChars cs then some (httpsSchemeChars, cs.drop 8)
  else if listStarts httpSchemeChars cs then some (httpSchemeChars, cs.drop 7)
  else none

/-- One attempted match of `\(https?:\/\/[^)]+\)` at the head of the
list: an opening parenthesis, a scheme, at least one character other
than `)`, and the closing parenthesis.  Returns the whole match
(parentheses included) and the characters after it. -/
def parenMatchAt (l : List Char) : Option (List Char × List Char) :=
  match l with
  | '(' :: cs1 =>
    match schemeSplit cs1 with
    | some (sch, cs2) =>
      match cs2.dropWhile (fun c => !(c == ')')) with
      | ')' :: rest =>
        if (cs2.takeWhile (fun c => !(c == ')'))).isEmpty then none
        else some ('(' :: (sch ++ (cs2.takeWhile (fun c => !(c == ')')) ++ [')'])), rest)
      | _ => none
    | none => none
  | _ => none

theorem length_dropWhile_le' (p : Char → Bool) (l : List Char) :
    (l.dropWhile p).length ≤ l.length := by
  induction l with
  | nil => simp [List.dropWhile]
  | cons a as ih =>
    by_cases h : p a
    · simp [List.dropWhile, h]
      omega
    · simp [List.dropWhile, h]

theorem listStarts_length {pre l : List Char} (h : listStarts pre l = true) :
    pre.length ≤ l.length := by
  induction pre generalizing l with
  | nil => simp
  | cons a as ih =>
    cases l with
    | nil => simp [listStarts] at h
    | cons b bs =>
      simp only [listStarts, Bool.and_eq_true] at h
      have := ih h.2
      simp only [List.length_cons]
      omega

theorem schemeSplit_length {l sch rest : List Char} (h : schemeSplit l = some (sch, rest)) :
    rest.length < l.length := by
  unfold schemeSplit at h
  by_cases h1 : listStarts httpsSchemeChars l = true
  · simp only [h1, if_true] at h
    obtain ⟨-, h2⟩ := Prod.mk.injEq .. ▸ Option.some.injEq .. ▸ h
    have hlen := listStarts_length h1
    have : httpsSchemeChars.length = 8 := by decide
    rw [← h2]
    simp only [List.length_drop]
    omega
  · simp only [h1, if_false] at h
    by_cases h2 : listStarts httpSchemeChars l = true
    · simp only [h2, if_true] at h
      obtain ⟨-, h3⟩ := Prod.mk.injEq .. ▸ Option.some.injEq .. ▸ h
      have hlen := listStarts_length h2
      have : httpSchemeChars.length = 7 := by decide
      rw [← h3]
      simp only [List.length_drop]
      omega
    · simp [h2] at h

theorem parenMatchAt_rest_length {l m rest : List Char}
    (h : parenMatchAt l = some (m, rest)) : rest.length < l.length := by
  unfold parenMatchAt at h
  split at h
  · next cs1 =>
    split at h
    · next sch cs2 hs =>
      split at h
      · next rest2 hd =>
        split at h
        · exact absurd h (by simp)
        · simp only [Option.some.injEq, Prod.mk.injEq] at h
          have hdl := length_dropWhile_le' (fun c => !(c == ')')) cs2
          rw [hd] at hdl
          have hcs2 := schemeSplit_length hs
          rw [← h.2]
          simp only [List.length_cons] at hdl ⊢
          omega
      · exact absurd h (by simp)
    · exact absurd h (by simp)
  · exact absurd h (by simp)

/-- The scanner below consumes at least one character per step (see
`parenMatchAt_rest_length`), so a fuel budget of the line length is
enough to exhaust the line; the fuel only makes the recursion
structural. -/
def parenMatchesFuel : Nat → List Char → List (List Char)
  | 0, _ => []
  | _ + 1, [] => []
  | fuel + 1, c :: cs =>
    match parenMatchAt (c :: cs) with
    | some (m, rest) => m :: parenMatchesFuel fuel rest
    | none => parenMatchesFuel fuel cs

/-- All non-overlapping matches of `\(https?:\/\/[^)]+\)` in a line,
left to right, as `line.match(re, "g")` produces them. -/
def parenMatches (l : List Char) : List (List Char) := parenMatchesFuel l.length l

/-- Whitespace in the sense of the `\s` regex class (ASCII part). -/
def jsIsSpace (c : Char) : Bool :=
  c == ' ' || c == '\t' || c == '\n' || c == '\r' || c == '\x0b' || c == '\x0c'

/-- One attempted match of `https?:\/\/[^\s\)]+` at the head of the
list: a scheme followed by at least one character that is neither
whitespace nor `)`. -/
def bareMatchAt (l : List Char) : Option (List Char × List Char) :=
  match schemeSplit l with
  | some (sch, cs2) =>
    if (cs2.takeWhile (fun c => !(jsIsSpace c) && !(c == ')'))).isEmpty then none
    else some (sch ++ cs2.takeWhile (fun c => !(jsIsSpace c) && !(c == ')')),
               cs2.dropWhile (fun c => !(jsIsSpace c) && !(c == ')')))
  | none => none

theorem bareMatchAt_rest_length {l m rest : List Char}
    (h : bareMatchAt l = some (m, rest)) : rest.length < l.length := by
  unfold bareMatchAt at h
  split at h
  · next sch cs2 hs =>
    split at h
    · exact absurd h (by simp)
    · simp only [Option.some.injEq, Prod.mk.injEq] at h
      have hdl := length_dropWhile_le' (fun c => !(jsIsSpace c) && !(c == ')')) cs2
      have hcs2 := schemeSplit_length hs
      rw [← h.2]
      omega
  · exact absurd h (by simp)

/-- Fuel-structural scan for bare URLs, with the same fuel argument as
`parenMatchesFuel` (see `bareMatchAt_rest_length`). -/
def bareMatchesFuel : Nat → List Char → List (List Char)
  | 0, _ => []
  | _ + 1, [] => []
  | fuel + 1, c :: cs =>
    match bareMatchAt (c :: cs) with
    | some (m, rest) => m :: bareMatchesFuel fuel rest
    | none => bareMatchesFuel fuel cs

/-- All non-overlapping matches of `https?:\/\/[^\s\)]+` in a line. -/
def bareMatches (l : List Char) : List (List Char) := bareMatchesFuel l.length l

/-- One step of the trailing `:digits` parser, working on the reversed
character list: strips leading digits (at least one) followed by `:`. -/
def chopDigitsColon (r : List Char) : Option (List Char) :=
  let ds := r.takeWhile Char.isDigit
  if ds.isEmpty then none
  else
    match r.dropWhile Char.isDigit with
    | ':' :: r' => some r'
    | _ => none

/-- `url.replace(/:\d+:\d+$/, "")`. -/
def stripColCol (cs : List Char) : List Char :=
  match chopDigitsColon cs.reverse with
  | some r1 =>
    match chopDigitsColon r1 with
    | some r2 => r2.reverse
    | none => cs
  | none => cs

/-- `url.replace(/:\d+$/, "")`. -/
def stripCol (cs : List Char) : List Char :=
  match chopDigitsColon cs.reverse with
  | some r1 => r1.reverse
  | none => cs

/-- The two suffix replacements the extraction applies in order. -/
def stripLineNumbers (cs : List Char) : List Char := stripCol (stripColCol cs)

/-- Processing of one regex match inside `extractJsUrlFromStack`: line
and column numbers are removed, then the query string and fragment are
stripped via `cleanUrl`. -/
def cleanCandidate (m : List Char) : String := cleanUrl (String.mk (stripLineNumbers m))

/-- The `for (const match of ...)` loops: the first candidate whose
cleaned form is truthy is returned. -/
def firstGoodUrl : List (List Char) → Option String
  | [] => none
  | m :: ms =>
    let u := cleanCandidate m
    if u = "" then firstGoodUrl ms else some u

/-- `fullstack || (stack ? [stack] : [])`. -/
def stackLines (stack : Option String) (fullstack : Option (List String)) : List String :=
  match fullstack with
  | some lines => lines
  | none =>
    match stack with
    | some s => if s = "" then [] else [s]
    | none => []

/-- The per-line body of `extractJsUrlFromStack`: parenthesised URL
matches are tried first (each with `slice(1, -1)` removing the
parentheses), then bare URL matches, then the next line. -/
def extractFromLines : List String → Option String
  | [] => none
  | line :: rest =>
    match firstGoodUrl ((parenMatches line.data).map (fun m => (m.drop 1).dropLast)) with
    | some u => some u
    | none =>
      match firstGoodUrl (bareMatches line.data) with
      | some u => some u
      | none => extractFromLines rest

/-- `extractJsUrlFromStack(stack, fullstack)` from the background script
(byte-identical in `PopupStorage`). -/
def extractJsUrlFromStack (stack : Option String) (fullstack : Option (List String)) :
    Option String :=
  extractFromLines (stackLines stack fullstack)

/-! ## Regex model and blocklist matcher -/

/-- Characters with a special meaning in a JS regular expression. -/
def regexMetaChars : List Char :=
  ['\\', '^', '$', '.', '*', '+', '?', '(', ')', '[', ']', '\x7b', '\x7d', '|']

/-- A compiled case-insensitive JS regular expression, in the literal
fragment of the model: it matches a string iff the pattern occurs in it
as a substring, ignoring ASCII case. -/
structure JsIRegexp where
  lit : String
deriving DecidableEq

/-- Model of `new RegExp(pattern, "i")`: a literal pattern (no
metacharacters) compiles to a case-insensitive substring matcher; a
pattern containing a metacharacter is outside the modelled fragment and
is treated as failing to compile, as an unbalanced group such as `"("`
does in JS. -/
def newRegExpI (pattern : String) : Option JsIRegexp :=
  if pattern.data.any (fun c => regexMetaChars.contains c) then none
  else some ⟨pattern⟩

/-- ASCII lowercasing of a string, as JS case-insensitive matching folds
ASCII letters. -/
def lowerString (s : String) : String := String.mk (s.data.map Char.toLower)

/-- `regex.test(s)` for the modelled fragment. -/
def JsIRegexp.test (r : JsIRegexp) (s : String) : Bool :=
  containsSub (lowerString r.lit).data (lowerString s).data

/-- An entry of the `compiledRegex` array: the source pattern together
with its compiled form. -/
structure CompiledRegex where
  pattern : String
  regex : JsIRegexp
deriving DecidableEq

/-- `compileRegexPatterns`: each pattern is compiled inside a
`try`/`catch`; an invalid pattern is logged and skipped, the rest of the
list is kept in order. -/
def compileRegexPatterns (blockedRegex : List String) : List CompiledRegex :=
  blockedRegex.filterMap (fun p => (newRegExpI p).map (fun r => ⟨p, r⟩))

/-! ## Listener records and the identity engine -/

/-- An observation message / listener record.  Fields that are absent in
JS (`undefined`) are `none`; the same object carries the
`pushState`/`changePage`/`log`/`action` control fields of the inbound
message, as the background script passes `msg` itself to
`addListener`. -/
structure Listener where
  window : Option String := none
  hops : Option String := none
  domain : Option String := none
  stack : Option String := none
  fullstack : Option (List String) := none
  listener : Option String := none
  parent_url : Option String := none
  action : Option String := none
  pushState : Bool := false
  changePage : Bool := false
  log : Option String := none
  enabled : Bool := false
deriving DecidableEq

/-- Truthiness of an optional JS string: present and non-empty. -/
def truthyStr : Option String → Bool
  | some s => !(s == "")
  | none => false

/-- `generateListenerKey`: the template literal
`jsUrl + "|" + hops + "|" + domain + "|" + listenerCode`, each
component defaulted to the empty string by `|| ""`. -/
def generateListenerKey (l : Listener) : String :=
  (extractJsUrlFromStack l.stack l.fullstack).getD "" ++ "|" ++ l.hops.getD ""
    ++ "|" ++ l.domain.getD "" ++ "|" ++ l.listener.getD ""

/-- The background script's two-entry extension blacklist. -/
def EXTENSION_BLACKLIST : List String := ["wappalyzer", "domlogger"]

/-- `isFromExtension(listener, stack)` of the background script, called
with the listener code string: `listener.toString()` on `undefined`
throws, the `catch` turns that into `false`; otherwise the code and the
stack are concatenated and searched for each blacklist entry. -/
def isFromExtension (listener : Option String) (stack : Option String) : Bool :=
  match listener with
  | none => false
  | some code =>
    EXTENSION_BLACKLIST.any (fun b => containsSubStr (code ++ " " ++ stack.getD "") b)

/-- `isListenerMatchedByRegex`: skipped entirely when the code is falsy
or no pattern compiled; otherwise the first matching compiled pattern
wins. -/
def isListenerMatchedByRegex (compiledRegex : List CompiledRegex) (l : Listener) : Bool :=
  if !(truthyStr l.listener) || compiledRegex.isEmpty then false
  else compiledRegex.any (fun cr => cr.regex.test (l.listener.getD ""))

/-- `isListenerBlocked`: exact code match, then exact extracted-URL
match (guarded by the URL's truthiness), then regex match. -/
def isListenerBlocked (blockedListeners blockedUrls : List String)
    (compiledRegex : List CompiledRegex) (l : Listener) : Bool :=
  (match l.listener with
   | some code => blockedListeners.contains code
   | none => false)
  || (match extractJsUrlFromStack l.stack l.fullstack with
      | some u => !(u == "") && blockedUrls.contains u
      | none => false)
  || isListenerMatchedByRegex compiledRegex l

/-! ## Background service state and handlers -/

/-- Point update of a tab-keyed map (`m[k] = v`). -/
def mapSet {α : Type} (m : Int → Option α) (k : Int) (v : α) : Int → Option α :=
  fun t => if t = k then some v else m t

/-- Point deletion of a tab-keyed map (`delete m[k]`). -/
def mapDel {α : Type} (m : Int → Option α) (k : Int) : Int → Option α :=
  fun t => if t = k then none else m t

@[simp] theorem mapSet_self {α : Type} (m : Int → Option α) (k : Int) (v : α) :
    mapSet m k v k = some v := by simp [mapSet]

@[simp] theorem mapDel_self {α : Type} (m : Int → Option α) (k : Int) :
    mapDel m k k = none := by simp [mapDel]

theorem mapSet_ne {α : Type} (m : Int → Option α) (k t : Int) (v : α) (h : t ≠ k) :
    mapSet m k v t = m t := by simp [mapSet, h]

theorem mapDel_ne {α : Type} (m : Int → Option α) (k t : Int) (h : t ≠ k) :
    mapDel m k t = m t := by simp [mapDel, h]

/-- The `cachedPopupData` object. -/
structure CachedPopup where
  listeners : Int → Option (List Listener)
  currentTabId : Option Int
  currentUrl : String
  lastUpdate : Nat

/-- The reset value of the cache (also its initial value). -/
def emptyCache : CachedPopup :=
  { listeners := fun _ => none, currentTabId := none, currentUrl := "", lastUpdate := 0 }

/-- The background script's global state, together with the bits of the
browser environment it consults: `tabUrls` maps a live tab id to its
URL (`none` means `tabs.get` rejects), `badgeText` records the badge
side effect, and `now` is the clock read by `Date.now()`. -/
structure BgState where
  tab_listeners : Int → Option (List Listener)
  tab_listener_keys : Int → Option (List String)
  tab_push : Int → Option Bool
  tab_lasturl : Int → Option Bool
  selectedId : Int
  dedupeEnabled : Bool
  blockedListeners : List String
  blockedUrls : List String
  blockedRegex : List String
  compiledRegex : List CompiledRegex
  log_url : String
  tabUrls : Int → Option String
  badgeText : Int → Option String
  cachedPopupData : CachedPopup
  now : Nat

/-- `isListenerBlocked` reading the blocklists from the global state. -/
def BgState.blocked (s : BgState) (l : Listener) : Bool :=
  isListenerBlocked s.blockedListeners s.blockedUrls s.compiledRegex l

/-- A JS `Set.add`: appends the key unless it is already present. -/
def keySetAdd (ks : List String) (k : String) : List String :=
  if ks.contains k then ks else ks ++ [k]

/-- `isDuplicateListener(newListener, tabId)`: `false` outright when
dedupe is disabled; otherwise the key set is lazily created and the
generated key is looked up in it. -/
def isDuplicateListener (s : BgState) (l : Listener) (tabId : Int) : BgState × Bool :=
  if !s.dedupeEnabled then (s, false)
  else
    let s1 :=
      if (s.tab_listener_keys tabId).isNone then
        { s with tab_listener_keys := mapSet s.tab_listener_keys tabId [] }
      else s
    (s1, ((s1.tab_listener_keys tabId).getD []).contains (generateListenerKey l))

/-- `addListenerKey(listener, tabId)`: a no-op when dedupe is disabled;
otherwise the key set is lazily created and the generated key added. -/
def addListenerKey (s : BgState) (l : Listener) (tabId : Int) : BgState :=
  if !s.dedupeEnabled then s
  else
    let s1 :=
      if (s.tab_listener_keys tabId).isNone then
        { s with tab_listener_keys := mapSet s.tab_listener_keys tabId [] }
      else s
    { s1 with tab_listener_keys :=
        (mapSet s1.tab_listener_keys tabId
          (keySetAdd ((s1.tab_listener_keys tabId).getD []) (generateListenerKey l))) }

/-- `addListener(tabId, listener)`.  Returns the new state, whether the
record was appended (the function's return value), and whether an
external log POST was issued for it — `logListener` only fetches when a
log endpoint URL is configured in settings. -/
def addListener (s : BgState) (tabId : Int) (l : Listener) : BgState × Bool × Bool :=
  if isFromExtension l.listener l.stack then (s, false, false)
  else
    let s1 :=
      if (s.tab_listeners tabId).isNone then
        { s with tab_listeners := mapSet s.tab_listeners tabId [],
                 tab_listener_keys := mapSet s.tab_listener_keys tabId [] }
      else s
    let dup := isDuplicateListener s1 l tabId
    if dup.2 then (dup.1, false, false)
    else
      let s2 := dup.1
      let s3 := { s2 with tab_listeners :=
        (mapSet s2.tab_listeners tabId (((s2.tab_listeners tabId).getD []) ++ [l])) }
      let s4 := addListenerKey s3 l tabId
      (s4, true, !(s4.blocked l) && !(s4.log_url == ""))

/-- `clearListeners(tabId)`: remembers whether the tab had records,
resets the record list to `[]` and clears (not deletes) the key set
when it exists. -/
def clearListeners (s : BgState) (tabId : Int) : BgState × Bool :=
  let had := !((s.tab_listeners tabId).getD []).isEmpty
  let s1 := { s with tab_listeners := mapSet s.tab_listeners tabId [] }
  let s2 :=
    if (s1.tab_listener_keys tabId).isSome then
      { s1 with tab_listener_keys := mapSet s1.tab_listener_keys tabId [] }
    else s1
  (s2, had)

/-- `updateCachedData`: when a selected tab is known (`selectedId &&
selectedId > 0`), snapshot the listener map, the selected tab id, the
tab URL (`"Unknown URL"` when `tabs.get` rejects) and the clock. -/
def updateCachedData (s : BgState) : BgState :=
  if !(s.selectedId == 0) && s.selectedId > 0 then
    { s with cachedPopupData :=
        { listeners := s.tab_listeners,
          currentTabId := some s.selectedId,
          currentUrl := (s.tabUrls s.selectedId).getD "Unknown URL",
          lastUpdate := s.now } }
  else s

/-- `notifyPopups` first refreshes the cache, then posts it to every
connected port; only the cache refresh touches the modelled state. -/
def notifyPopups (s : BgState) : BgState := updateCachedData s

/-- `refreshCount`: counts the selected tab's non-blocked records and
writes them to the badge; when the selected tab no longer exists the
`catch` branch deletes the tab's records, key set and last-URL flag
(but not its push flag). -/
def refreshCount (s : BgState) : BgState :=
  let activeCount :=
    (((s.tab_listeners s.selectedId).getD []).filter (fun l => !(s.blocked l))).length
  if s.selectedId > 0 then
    if (s.tabUrls s.selectedId).isSome then
      { s with badgeText := mapSet s.badgeText s.selectedId (toString activeCount) }
    else
      { s with tab_listeners := mapDel s.tab_listeners s.selectedId,
               tab_listener_keys := mapDel s.tab_listener_keys s.selectedId,
               tab_lasturl := mapDel s.tab_lasturl s.selectedId }
  else s

/-- The exact string the message handler drops before any processing. -/
def nativeCodeStr : String := "function () \x7b [native code] \x7d"

/-- `for (const tabId in tab_listener_keys) tab_listener_keys[tabId].clear()`. -/
def clearAllListenerKeySets (s : BgState) : BgState :=
  { s with tab_listener_keys := fun t => (s.tab_listener_keys t).map (fun _ => []) }

/-- The `runtime.onMessage` handler.  `sender` is the sender's tab id
when the message comes from a tab.  Returns the new state, the
`success` flag of the response, and whether popups were notified. -/
def onMessage (s : BgState) (sender : Option Int) (msg : Listener) : BgState × Bool × Bool :=
  if msg.action == some "updateDedupeSetting" then
    let s1 := { s with dedupeEnabled := msg.enabled }
    let s2 := if !msg.enabled then clearAllListenerKeySets s1 else s1
    (refreshCount (updateCachedData s2), true, false)
  else
    match sender with
    | none => (s, false, false)
    | some tabId =>
      if truthyStr msg.listener && (msg.listener == some nativeCodeStr) then (s, true, false)
      else
        let step :=
          if truthyStr msg.listener then
            let added := addListener s tabId { msg with parent_url := s.tabUrls tabId }
            (added.1, added.2.1)
          else (s, false)
        let s2 :=
          if msg.pushState then
            { step.1 with tab_push := mapSet step.1.tab_push tabId true }
          else step.1
        let s3 :=
          if msg.changePage then { s2 with tab_lasturl := mapDel s2.tab_lasturl tabId }
          else s2
        if truthyStr msg.log then (s3, true, false)
        else
          let s4 := refreshCount s3
          if step.2 then (notifyPopups (updateCachedData s4), true, true)
          else (s4, true, false)

/-- The `tabs.onUpdated` handler, given the tab id and `props.status`.
Returns the new state and whether popups were notified. -/
def onUpdated (s : BgState) (tabId : Int) (status : Option String) : BgState × Bool :=
  let step :=
    if status == some "complete" then
      (if tabId == s.selectedId then updateCachedData (refreshCount s) else s, false)
    else if truthyStr status then
      if (s.tab_push tabId).getD false then
        ({ s with tab_push := mapDel s.tab_push tabId }, false)
      else if !((s.tab_lasturl tabId).getD false) then
        let cleared := clearListeners s tabId
        if cleared.2 then (notifyPopups (updateCachedData cleared.1), true)
        else (cleared.1, false)
      else (s, false)
    else (s, false)
  if status == some "loading" then
    ({ step.1 with tab_lasturl := mapSet step.1.tab_lasturl tabId true }, step.2)
  else step

/-- The `tabs.onRemoved` handler: deletes the four per-tab entries and
resets the popup cache when it was for the removed tab. -/
def onRemoved (s : BgState) (tabId : Int) : BgState :=
  let s1 := { s with tab_listeners := mapDel s.tab_listeners tabId,
                     tab_listener_keys := mapDel s.tab_listener_keys tabId,
                     tab_push := mapDel s.tab_push tabId,
                     tab_lasturl := mapDel s.tab_lasturl tabId }
  if s1.cachedPopupData.currentTabId == some tabId then
    { s1 with cachedPopupData := emptyCache }
  else s1

/-! ## Popup storage: blocklists and import/export -/

/-- The blocklist-related state of `PopupStorage`. -/
structure PopupStorageState where
  blockedListeners : List String
  blockedUrls : List String
  blockedRegex : List String
  compiledRegex : List CompiledRegex
deriving DecidableEq

/-- A JSON field of an import file, as the import functions inspect it:
`strs` is an array of strings (truthy and `Array.isArray`), `absent` is
a missing/falsy field, `nonArray` is any other truthy value. -/
inductive JField
  | strs (xs : List String)
  | absent
  | nonArray
deriving DecidableEq

/-- The JSON document written by `exportData` and read back by
`importData`; `JSON.stringify` followed by `JSON.parse` is the identity
on documents of this shape. -/
structure ExportFile where
  blockedUrls : JField := .absent
  blockedListeners : JField := .absent
  blockedRegex : JField := .absent
  exportDate : String := ""
  version : String := ""
deriving DecidableEq

/-- `exportBlockedUrls`: `{blockedUrls, exportDate, version: "1.0"}`. -/
def exportBlockedUrls (st : PopupStorageState) (now : String) : ExportFile :=
  { blockedUrls := .strs st.blockedUrls, exportDate := now, version := "1.0" }

/-- `exportBlockedListeners`. -/
def exportBlockedListeners (st : PopupStorageState) (now : String) : ExportFile :=
  { blockedListeners := .strs st.blockedListeners, exportDate := now, version := "1.0" }

/-- `exportBlockedRegex`. -/
def exportBlockedRegex (st : PopupStorageState) (now : String) : ExportFile :=
  { blockedRegex := .strs st.blockedRegex, exportDate := now, version := "1.0" }

/-- `importBlockedUrls`: accepts the file iff `data.blockedUrls` is an
array, replacing the list wholesale; otherwise the callback receives
an "Invalid file format" error (`none` here). -/
def importBlockedUrls (st : PopupStorageState) (f : ExportFile) : Option PopupStorageState :=
  match f.blockedUrls with
  | .strs xs => some { st with blockedUrls := xs }
  | _ => none

/-- `importBlockedListeners`. -/
def importBlockedListeners (st : PopupStorageState) (f : ExportFile) :
    Option PopupStorageState :=
  match f.blockedListeners with
  | .strs xs => some { st with blockedListeners := xs }
  | _ => none

/-- `saveRegexPatterns(patterns)`: replaces the pattern list and
recompiles. -/
def saveRegexPatterns (st : PopupStorageState) (patterns : List String) : PopupStorageState :=
  { st with blockedRegex := patterns, compiledRegex := compileRegexPatterns patterns }

/-- `importBlockedRegex`: accepts iff `data.blockedRegex` is an array,
then stores and recompiles it via `saveRegexPatterns`. -/
def importBlockedRegex (st : PopupStorageState) (f : ExportFile) : Option PopupStorageState :=
  match f.blockedRegex with
  | .strs xs => some (saveRegexPatterns st xs)
  | _ => none

/-! ## Content-script interception hook -/

/-- The content script's extension blacklist. -/
def csExtensionBlacklist : List String :=
  ["wappalyzer", "react-devtools", "vue-devtools", "domlogger", "bitwarden-webauthn",
   "POSTMESSAGE_TRACKER_DATA", "FancyTracker:", "__postmessagetrackername__"]

/-- The aspects of a JS listener argument the hook's control flow
depends on: its truthiness, whether `typeof` is `"function"`, the result
of calling its `toString()` (`none` models a `toString` that throws, a
perfectly legal listener shape), and the truthiness of its
`__FANCYTRACKER_INTERNAL__` marker property. -/
structure JsListenerVal where
  truthy : Bool
  isFunc : Bool
  toStr : Option String
  marker : Bool
deriving DecidableEq

/-- The content script's `isFromExtension(listener, stack)`: the whole
body is inside `try`/`catch`, so a throwing `toString` yields `false`. -/
def csIsFromExtension (l : JsListenerVal) (stack : String) : Bool :=
  match l.toStr with
  | none => false
  | some s => csExtensionBlacklist.any (fun b => containsSubStr (s ++ " " ++ stack) b)

/-- `isExtensionListener(listener)`: the marker property short-circuits,
then the blacklist check runs with an empty stack. -/
def isExtensionListener (l : JsListenerVal) : Bool :=
  (l.truthy && l.marker) || csIsFromExtension l ""

/-- Outcome of one call to the hooked `Window.prototype.addEventListener`.
`forwarded` means `originalAddEventListener.apply(this, arguments)` ran
and its value was returned — the script is in strict mode, so the
`arguments` object still holds the caller's original listener even after
the local `listener` variable is reassigned by unwrapping.  `threw`
means an exception escaped to the page before the original was ever
invoked. -/
inductive HookResult
  | threw
  | forwarded
deriving DecidableEq

/-- The hooked `Window.prototype.addEventListener`.  For a `"message"`
registration that is not filtered as extension-internal, the statement
`if (listener && listener.toString().indexOf('event.dispatch.apply') !== -1)`
runs outside any `try`/`catch`: a truthy listener whose `toString`
throws makes the whole hook throw.  Listeners in the modelled fragment
whose `toString` returns normally proceed through enrichment (whose
internals are exception-guarded) and reach the final forward. -/
def hookedAddEventListener (ty : String) (l : JsListenerVal) : HookResult :=
  if ty == "message" then
    if isExtensionListener l then .forwarded
    else if l.truthy then
      match l.toStr with
      | none => .threw
      | some _ => .forwarded
    else .forwarded
  else .forwarded

/-! ## Concrete fixtures -/

/-- The registration of the dedup scenario: code
`function(e){console.log(e)}`, stack line
`(https://cdn.example.com/a.js?x=1:10:5)`, hops `top`, domain
`example.com`. -/
def sampleRec : Listener :=
  { window := some "top", hops := some "top", domain := some "example.com",
    stack := some "(https://cdn.example.com/a.js?x=1:10:5)",
    listener := some "function(e)\x7bconsole.log(e)\x7d" }

/-- The everywhere-undefined tab map. -/
def emptyTabMap {α : Type} : Int → Option α := fun _ => none

/-- A fresh background state: tab 1 is the live selected tab, dedupe is
on, all blocklists are empty, no log endpoint is configured. -/
def baseState : BgState :=
  { tab_listeners := emptyTabMap, tab_listener_keys := emptyTabMap,
    tab_push := emptyTabMap, tab_lasturl := emptyTabMap,
    selectedId := 1, dedupeEnabled := true,
    blockedListeners := [], blockedUrls := [], blockedRegex := [], compiledRegex := [],
    log_url := "", tabUrls := fun t => if t = 1 then some "https://example.com/" else none,
    badgeText := emptyTabMap, cachedPopupData := emptyCache, now := 0 }

/-! ## Claim theorems -/

/-- C4: the claim that the hooked `Window.prototype.addEventListener`
always invokes the original registration and never throws into the page
fails on the code: a truthy `"message"` listener whose `toString()`
throws (a legal listener shape, e.g. an object with `handleEvent` and a
throwing `toString`) makes the un-guarded
`listener.toString().indexOf(...)` test at the top of the hook throw
before the original is ever called.  A listener whose `toString`
returns normally is forwarded. -/
theorem claim4_theorem :
    hookedAddEventListener "message"
        { truthy := true, isFunc := false, toStr := none, marker := false }
      = HookResult.threw
    ∧ hookedAddEventListener "message"
        { truthy := true, isFunc := true,
          toStr := some "function (e) \x7b return e; \x7d", marker := false }
      = HookResult.forwarded := by
  decide

/-- C9: an observation message whose listener code is exactly
`function () { [native code] }` is answered with success but leaves the
whole background state unchanged and notifies no popups. -/
theorem claim9_theorem (s : BgState) (tabId : Int) (msg : Listener)
    (ha : msg.action ≠ some "updateDedupeSetting")
    (hl : msg.listener = some nativeCodeStr) :
    onMessage s (some tabId) msg = (s, true, false) := by
  have h1 : (msg.action == some "updateDedupeSetting") = false := by
    simp only [beq_eq_false_iff_ne, ne_eq]
    exact ha
  have h2 : (truthyStr msg.listener && (msg.listener == some nativeCodeStr)) = true := by
    rw [hl]; decide
  simp only [onMessage, h1, Bool.false_eq_true, if_false, h2, if_true]

/-- Witness for C9 at a concrete state and message. -/
theorem claim9_witness :
    onMessage baseState (some 1) { listener := some nativeCodeStr }
      = (baseState, true, false) :=
  claim9_theorem baseState 1 { listener := some nativeCodeStr } (by decide) rfl

/-- C7: removing a tab deletes its record list, key set, push flag and
last-URL flag, resets the popup cache when the cached snapshot was for
that tab, and leaves every other tab's state untouched. -/
theorem claim7_theorem (s : BgState) (tabId : Int) :
    ((onRemoved s tabId).tab_listeners tabId = none
      ∧ (onRemoved s tabId).tab_listener_keys tabId = none
      ∧ (onRemoved s tabId).tab_push tabId = none
      ∧ (onRemoved s tabId).tab_lasturl tabId = none)
    ∧ (s.cachedPopupData.currentTabId = some tabId →
        (onRemoved s tabId).cachedPopupData = emptyCache)
    ∧ (∀ t, t ≠ tabId →
        (onRemoved s tabId).tab_listeners t = s.tab_listeners t
        ∧ (onRemoved s tabId).tab_listener_keys t = s.tab_listener_keys t
        ∧ (onRemoved s tabId).tab_push t = s.tab_push t
        ∧ (onRemoved s tabId).tab_lasturl t = s.tab_lasturl t) := by
  by_cases hc : (s.cachedPopupData.currentTabId == some tabId) = true
  · refine ⟨?_, fun _ => ?_, fun t ht => ?_⟩
    · simp [onRemoved, hc]
    · simp [onRemoved, hc]
    · simp [onRemoved, hc, mapDel_ne _ _ _ ht]
  · refine ⟨?_, fun hm => ?_, fun t ht => ?_⟩
    · simp [onRemoved, hc]
    · exact absurd hm (by simpa [beq_iff_eq] using hc)
    · simp [onRemoved, hc, mapDel_ne _ _ _ ht]

/-- A state whose popup cache snapshot is for tab 1. -/
def cachedState : BgState :=
  { baseState with cachedPopupData :=
      { emptyCache with currentTabId := some 1, lastUpdate := 5 } }

/-- Witness for C7 at a concrete state whose cache was for the removed
tab. -/
theorem claim7_witness :
    (onRemoved cachedState 1).tab_listeners 1 = none
    ∧ (onRemoved cachedState 1).cachedPopupData = emptyCache
    ∧ (onRemoved cachedState 1).tab_push 2 = cachedState.tab_push 2 := by
  obtain ⟨h1, h2, h3⟩ := claim7_theorem cachedState 1
  exact ⟨h1.1, h2 rfl, (h3 2 (by decide)).2.2.1⟩

/-- C8: exporting any block list to the `{<listKind>, exportDate,
version: "1.0"}` file and importing that file back reproduces exactly
the exported rule list (so in particular the same effective set) for
all three kinds; for the regex kind the recompiled patterns coincide
with the originals, and re-importing into the exporting state is the
identity. -/
theorem claim8_theorem (st target : PopupStorageState) (now : String)
    (hwf : st.compiledRegex = compileRegexPatterns st.blockedRegex) :
    importBlockedUrls target (exportBlockedUrls st now)
        = some { target with blockedUrls := st.blockedUrls }
    ∧ importBlockedListeners target (exportBlockedListeners st now)
        = some { target with blockedListeners := st.blockedListeners }
    ∧ importBlockedRegex target (exportBlockedRegex st now)
        = some (saveRegexPatterns target st.blockedRegex)
    ∧ saveRegexPatterns target st.blockedRegex
        = { target with blockedRegex := st.blockedRegex,
                        compiledRegex := compileRegexPatterns st.blockedRegex }
    ∧ importBlockedRegex st (exportBlockedRegex st now) = some st := by
  refine ⟨rfl, rfl, rfl, rfl, ?_⟩
  simp only [importBlockedRegex, exportBlockedRegex, saveRegexPatterns, ← hwf]

/-- A concrete popup-storage state with one rule of each kind. -/
def sampleStorage : PopupStorageState :=
  { blockedListeners := ["function(x)\x7b\x7d"],
    blockedUrls := ["https://ads.example.com/t.js"],
    blockedRegex := ["eval"],
    compiledRegex := compileRegexPatterns ["eval"] }

/-- Witness for C8 at a concrete storage state. -/
theorem claim8_witness :
    importBlockedRegex sampleStorage (exportBlockedRegex sampleStorage "2024-01-01")
        = some sampleStorage
    ∧ importBlockedUrls sampleStorage (exportBlockedUrls sampleStorage "2024-01-01")
        = some sampleStorage := by
  obtain ⟨h1, h2, h3, h4, h5⟩ := claim8_theorem sampleStorage sampleStorage "2024-01-01" rfl
  refine ⟨h5, ?_⟩
  rw [h1]

theorem firstGoodUrl_ne_empty {ms : List (List Char)} {u : String}
    (h : firstGoodUrl ms = some u) : u ≠ "" := by
  induction ms with
  | nil => simp [firstGoodUrl] at h
  | cons m ms ih =>
    unfold firstGoodUrl at h
    by_cases he : cleanCandidate m = ""
    · rw [if_pos he] at h
      exact ih h
    · rw [if_neg he] at h
      obtain rfl := Option.some.injEq .. ▸ h
      exact he

theorem extractFromLines_ne_empty {lines : List String} {u : String}
    (h : extractFromLines lines = some u) : u ≠ "" := by
  induction lines with
  | nil => simp [extractFromLines] at h
  | cons line rest ih =>
    unfold extractFromLines at h
    split at h
    · next heq => exact firstGoodUrl_ne_empty (h ▸ heq)
    · split at h
      · next heq => exact firstGoodUrl_ne_empty (h ▸ heq)
      · exact ih h

theorem extractJsUrlFromStack_ne_empty {stack : Option String}
    {fullstack : Option (List String)} {u : String}
    (h : extractJsUrlFromStack stack fullstack = some u) : u ≠ "" :=
  extractFromLines_ne_empty h

/-- C2: the identity key is exactly the derived source URL, hops,
domain and code joined by the fixed separator `"|"`; on the scenario
registration the extraction takes the parenthesised stack URL, strips
the `:10:5` suffix and the query string, and two identical
registrations share one key, so with dedupe on the stored count for the
tab is 1. -/
theorem claim2_theorem :
    (∀ l : Listener,
      generateListenerKey l
        = (extractJsUrlFromStack l.stack l.fullstack).getD "" ++ "|" ++ l.hops.getD ""
            ++ "|" ++ l.domain.getD "" ++ "|" ++ l.listener.getD "")
    ∧ extractJsUrlFromStack sampleRec.stack sampleRec.fullstack
        = some "https://cdn.example.com/a.js"
    ∧ generateListenerKey sampleRec
        = "https://cdn.example.com/a.js|top|example.com|function(e)\x7bconsole.log(e)\x7d"
    ∧ (((addListener (addListener baseState 1 sampleRec).1 1 sampleRec).1.tab_listeners
          1).getD []).length = 1 := by
  refine ⟨fun l => rfl, by decide, by decide, by decide⟩

/-- A state whose regex blocklist is the single empty pattern. -/
def emptyPatternState : BgState :=
  { baseState with blockedRegex := [""], compiledRegex := compileRegexPatterns [""] }

/-- A record whose listener code is the empty string. -/
def emptyCodeRec : Listener := { listener := some "" }

/-- C5 counterexample: with the (successfully compiled) empty pattern
in the regex list and a record whose code is the empty string, the
pattern matches the code — `new RegExp("", "i").test("")` is `true` —
yet `isListenerBlocked` returns `false`, because
`isListenerMatchedByRegex` bails out on a falsy code before testing any
pattern.  So "blocked iff ... some compiled pattern matches the code"
fails as stated. -/
theorem claim5_counterexample :
    emptyPatternState.blocked emptyCodeRec = false
    ∧ emptyPatternState.compiledRegex
        = compileRegexPatterns emptyPatternState.blockedRegex
    ∧ (∃ cr ∈ emptyPatternState.compiledRegex,
        cr.regex.test (emptyCodeRec.listener.getD "") = true)
    ∧ emptyCodeRec.listener.getD "" ∉ emptyPatternState.blockedListeners := by
  refine ⟨rfl, rfl, ?_, by decide⟩
  exact ⟨⟨"", ⟨""⟩⟩, by decide, by decide⟩

/-- C5 (amended): `isListenerBlocked` is true iff the code is in the
exact-code list, or the URL extracted from the stack is in the
exact-URL list, or the code is truthy (present and non-empty) and some
successfully compiled pattern of the regex list matches it.  Matching
is case-insensitive by default: the literal pattern `"eval"` blocks the
code `function(e){EVAL(e.data)}`.  An invalid pattern (such as the
unbalanced `"("`) is dropped at compile time without affecting the
other patterns or aborting matching. -/
theorem claim5_theorem (bl bu pats : List String) (l : Listener) :
    (isListenerBlocked bl bu (compileRegexPatterns pats) l = true ↔
      ((∃ c, l.listener = some c ∧ c ∈ bl)
        ∨ (∃ u, extractJsUrlFromStack l.stack l.fullstack = some u ∧ u ∈ bu)
        ∨ (truthyStr l.listener = true
            ∧ ∃ p ∈ pats, ∃ r, newRegExpI p = some r
                ∧ r.test (l.listener.getD "") = true)))
    ∧ isListenerBlocked [] [] (compileRegexPatterns ["eval"])
        { listener := some "function(e)\x7bEVAL(e.data)\x7d" } = true
    ∧ compileRegexPatterns ["(", "eval"] = compileRegexPatterns ["eval"]
    ∧ isListenerBlocked [] [] (compileRegexPatterns ["(", "eval"])
        { listener := some "function(e)\x7bEVAL(e.data)\x7d" } = true := by
  refine ⟨?_, by decide, by decide, by decide⟩
  unfold isListenerBlocked
  simp only [Bool.or_eq_true]
  have h1 : ((match l.listener with
      | some code => bl.contains code
      | none => false) = true) ↔ (∃ c, l.listener = some c ∧ c ∈ bl) := by
    cases hl : l.listener with
    | none => simp
    | some c => simp
  have h2 : ((match extractJsUrlFromStack l.stack l.fullstack with
      | some u => !(u == "") && bu.contains u
      | none => false) = true) ↔
      (∃ u, extractJsUrlFromStack l.stack l.fullstack = some u ∧ u ∈ bu) := by
    cases hx : extractJsUrlFromStack l.stack l.fullstack with
    | none => simp
    | some u =>
      have hu : (u == "") = false := by
        simp only [beq_eq_false_iff_ne, ne_eq]
        exact extractJsUrlFromStack_ne_empty hx
      simp [hu]
  have h3 : (isListenerMatchedByRegex (compileRegexPatterns pats) l = true) ↔
      (truthyStr l.listener = true
        ∧ ∃ p ∈ pats, ∃ r, newRegExpI p = some r
            ∧ r.test (l.listener.getD "") = true) := by
    unfold isListenerMatchedByRegex
    by_cases ht : truthyStr l.listener = true
    · by_cases he : (compileRegexPatterns pats).isEmpty = true
      · have hnone : ∀ p ∈ pats, ∀ r, newRegExpI p = some r → False := by
          intro p hp r hr
          have : (⟨p, r⟩ : CompiledRegex) ∈ compileRegexPatterns pats := by
            unfold compileRegexPatterns
            rw [List.mem_filterMap]
            exact ⟨p, hp, by rw [hr]; rfl⟩
          rw [List.isEmpty_iff] at he
          rw [he] at this
          exact absurd this (List.not_mem_nil _)
        simp only [ht, Bool.not_true, Bool.false_or, he, if_true]
        constructor
        · intro hf; exact absurd hf (by simp)
        · rintro ⟨-, p, hp, r, hr, -⟩
          exact absurd hr (by intro h; exact hnone p hp r h)
      · simp only [ht, Bool.not_true, Bool.false_or, he, Bool.false_eq_true, if_false]
        rw [List.any_eq_true]
        constructor
        · rintro ⟨cr, hcr, htest⟩
          unfold compileRegexPatterns at hcr
          rw [List.mem_filterMap] at hcr
          obtain ⟨p, hp, hmap⟩ := hcr
          cases hre : newRegExpI p with
          | none => rw [hre] at hmap; exact absurd hmap (by simp)
          | some r =>
            rw [hre] at hmap
            simp at hmap
            refine ⟨by trivial, p, hp, r, hre, ?_⟩
            rw [← hmap] at htest
            exact htest
        · rintro ⟨-, p, hp, r, hre, htest⟩
          refine ⟨⟨p, r⟩, ?_, htest⟩
          unfold compileRegexPatterns
          rw [List.mem_filterMap]
          exact ⟨p, hp, by rw [hre]; rfl⟩
    · have ht' : truthyStr l.listener = false := by
        cases h : truthyStr l.listener
        · rfl
        · exact absurd h ht
      simp only [ht', Bool.not_false, Bool.true_or, if_true]
      constructor
      · intro hf; exact absurd hf (by simp)
      · rintro ⟨hc, -⟩
        exact absurd hc (by simp)
  rw [h1, h2, h3]
  exact or_assoc

/-- Replaces only the blocklist configuration of a state. -/
def withBlocklists (s : BgState) (bl bu : List String) (cr : List CompiledRegex) : BgState :=
  { s with blockedListeners := bl, blockedUrls := bu, compiledRegex := cr }

theorem addListener_fresh_on (s : BgState) (tabId : Int) (r : Listener)
    (hext : isFromExtension r.listener r.stack = false)
    (hd : s.dedupeEnabled = true)
    (hfresh : ((s.tab_listener_keys tabId).getD []).contains (generateListenerKey r) = false)
    (hwfk : s.tab_listeners tabId = none → (s.tab_listener_keys tabId).getD [] = []) :
    (addListener s tabId r).1.tab_listeners tabId
        = some (((s.tab_listeners tabId).getD []) ++ [r])
    ∧ (addListener s tabId r).1.tab_listener_keys tabId
        = some (keySetAdd ((s.tab_listener_keys tabId).getD []) (generateListenerKey r))
    ∧ (addListener s tabId r).2.1 = true
    ∧ (addListener s tabId r).1.dedupeEnabled = s.dedupeEnabled := by
  by_cases hln : (s.tab_listeners tabId).isNone = true
  · have h0 : s.tab_listeners tabId = none := Option.isNone_iff_eq_none.mp hln
    have hk0 : (s.tab_listener_keys tabId).getD [] = [] := hwfk h0
    simp [addListener, isDuplicateListener, addListenerKey, hext, hd, hln, h0, hk0,
      keySetAdd, mapSet]
  · by_cases hkn : (s.tab_listener_keys tabId).isNone = true
    · have hk0 : (s.tab_listener_keys tabId).getD [] = [] := by
        rw [Option.isNone_iff_eq_none.mp hkn]; rfl
      simp [addListener, isDuplicateListener, addListenerKey, hext, hd, hln, hkn, hk0,
        keySetAdd, mapSet]
    · have hfresh' : generateListenerKey r ∉ (s.tab_listener_keys tabId).getD [] := by
        simpa using hfresh
      simp [addListener, isDuplicateListener, addListenerKey, hext, hd, hln, hkn, hfresh',
        keySetAdd, mapSet]

theorem addListener_dup (s : BgState) (tabId : Int) (r : Listener)
    (hext : isFromExtension r.listener r.stack = false)
    (hd : s.dedupeEnabled = true)
    (hls : (s.tab_listeners tabId).isNone = false)
    (hks : (s.tab_listener_keys tabId).isNone = false)
    (hdup : ((s.tab_listener_keys tabId).getD []).contains (generateListenerKey r) = true) :
    addListener s tabId r = (s, false, false) := by
  have hdup' : generateListenerKey r ∈ (s.tab_listener_keys tabId).getD [] := by
    simpa using hdup
  simp [addListener, isDuplicateListener, hext, hd, hls, hks, hdup']

theorem addListener_nodedupe (s : BgState) (tabId : Int) (r : Listener)
    (hext : isFromExtension r.listener r.stack = false)
    (hd : s.dedupeEnabled = false) :
    (addListener s tabId r).1.tab_listeners tabId
        = some (((s.tab_listeners tabId).getD []) ++ [r])
    ∧ (addListener s tabId r).1.tab_listener_keys tabId
        = (if (s.tab_listeners tabId).isNone = true then some []
            else s.tab_listener_keys tabId)
    ∧ (addListener s tabId r).2.1 = true
    ∧ (addListener s tabId r).1.dedupeEnabled = s.dedupeEnabled := by
  by_cases hln : (s.tab_listeners tabId).isNone = true
  · have h0 : s.tab_listeners tabId = none := Option.isNone_iff_eq_none.mp hln
    simp [addListener, isDuplicateListener, addListenerKey, hext, hd, hln, h0, mapSet]
  · simp [addListener, isDuplicateListener, addListenerKey, hext, hd, hln, mapSet]

theorem keySetAdd_contains (ks : List String) (k : String) :
    (keySetAdd ks k).contains k = true := by
  unfold keySetAdd
  by_cases h : ks.contains k = true <;> simp_all

/-- A fresh state with deduplication switched off. -/
def dedupeOffState : BgState := { baseState with dedupeEnabled := false }

/-- C1 counterexample: with deduplication disabled, a non-duplicate
record is appended (`addListener` returns `true`) but its key is NOT
added to the tab's key set — `addListenerKey` returns early when dedupe
is off — contradicting the claim's "appended ... and then its key is
added to the tab's key set". -/
theorem claim1_counterexample :
    (addListener dedupeOffState 1 sampleRec).2.1 = true
    ∧ (addListener dedupeOffState 1 sampleRec).1.tab_listeners 1 = some [sampleRec]
    ∧ generateListenerKey sampleRec
        ∉ ((addListener dedupeOffState 1 sampleRec).1.tab_listener_keys 1).getD [] := by
  refine ⟨by decide, by decide, by decide⟩

/-- C1 (amended): for two records on the same tab with equal derived
identity components, when dedupe is on, adding the first and then the
second appends only the first (the second is rejected as a duplicate),
the append happens together with the key entering the key set; when
dedupe is off both records are appended and the key set receives no
keys. -/
theorem claim1_theorem (s : BgState) (tabId : Int) (r1 r2 : Listener)
    (hext1 : isFromExtension r1.listener r1.stack = false)
    (hext2 : isFromExtension r2.listener r2.stack = false)
    (hurl : extractJsUrlFromStack r1.stack r1.fullstack
              = extractJsUrlFromStack r2.stack r2.fullstack)
    (hhops : r1.hops = r2.hops) (hdom : r1.domain = r2.domain)
    (hcode : r1.listener = r2.listener)
    (hfresh : ((s.tab_listener_keys tabId).getD []).contains (generateListenerKey r1) = false)
    (hwfk : s.tab_listeners tabId = none → (s.tab_listener_keys tabId).getD [] = []) :
    (s.dedupeEnabled = true →
      (addListener (addListener s tabId r1).1 tabId r2).1.tab_listeners tabId
          = some (((s.tab_listeners tabId).getD []) ++ [r1])
      ∧ (addListener (addListener s tabId r1).1 tabId r2).2.1 = false
      ∧ (addListener s tabId r1).1.tab_listeners tabId
          = some (((s.tab_listeners tabId).getD []) ++ [r1])
      ∧ (addListener s tabId r1).1.tab_listener_keys tabId
          = some (keySetAdd ((s.tab_listener_keys tabId).getD []) (generateListenerKey r1)))
    ∧ (s.dedupeEnabled = false →
      (addListener (addListener s tabId r1).1 tabId r2).1.tab_listeners tabId
          = some (((s.tab_listeners tabId).getD []) ++ [r1, r2])
      ∧ ((addListener s tabId r1).1.tab_listener_keys tabId).getD []
          = (s.tab_listener_keys tabId).getD []) := by
  have hkeq : generateListenerKey r1 = generateListenerKey r2 := by
    unfold generateListenerKey
    rw [hurl, hhops, hdom, hcode]
  constructor
  · intro hd
    obtain ⟨ha, hb, hadded, hdd⟩ := addListener_fresh_on s tabId r1 hext1 hd hfresh hwfk
    have hd2 : (addListener s tabId r1).1.dedupeEnabled = true := by rw [hdd]; exact hd
    have hls2 : ((addListener s tabId r1).1.tab_listeners tabId).isNone = false := by
      rw [ha]; rfl
    have hks2 : ((addListener s tabId r1).1.tab_listener_keys tabId).isNone = false := by
      rw [hb]; rfl
    have hdup : (((addListener s tabId r1).1.tab_listener_keys tabId).getD []).contains
        (generateListenerKey r2) = true := by
      rw [hb, ← hkeq]
      exact keySetAdd_contains _ _
    have hsecond := addListener_dup (addListener s tabId r1).1 tabId r2 hext2 hd2 hls2 hks2 hdup
    rw [hsecond]
    exact ⟨ha, rfl, ha, hb⟩
  · intro hd
    obtain ⟨ha, hb, hadded, hdd⟩ := addListener_nodedupe s tabId r1 hext1 hd
    have hd2 : (addListener s tabId r1).1.dedupeEnabled = false := by rw [hdd]; exact hd
    obtain ⟨ha2, hb2, hadded2, hdd2⟩ :=
      addListener_nodedupe (addListener s tabId r1).1 tabId r2 hext2 hd2
    constructor
    · rw [ha2, ha]
      simp
    · rw [hb]
      by_cases hln : (s.tab_listeners tabId).isNone = true
      · rw [if_pos hln, hwfk (Option.isNone_iff_eq_none.mp hln)]
        rfl
      · rw [if_neg hln]

/-- Witness for C1 at a concrete fresh state and the scenario record,
exercising the dedupe-on half. -/
theorem claim1_witness :
    (addListener (addListener baseState 1 sampleRec).1 1 sampleRec).1.tab_listeners 1
        = some [sampleRec]
    ∧ (addListener (addListener baseState 1 sampleRec).1 1 sampleRec).2.1 = false
    ∧ (addListener baseState 1 sampleRec).1.tab_listener_keys 1
        = some [generateListenerKey sampleRec] := by
  obtain ⟨hon, -⟩ := claim1_theorem baseState 1 sampleRec sampleRec (by decide) (by decide)
    rfl rfl rfl rfl (by decide) (fun _ => rfl)
  obtain ⟨ha, hb, -, hd⟩ := hon rfl
  exact ⟨ha, hb, hd⟩

/-- C10 counterexample: with no log endpoint configured
(`log_url = ""`), a record that is newly added and not blocked still
produces no external log POST — `logListener` returns before fetching —
so "the POST is issued iff the record was newly added and not blocked"
fails as stated. -/
theorem claim10_counterexample :
    (addListener baseState 1 sampleRec).2.1 = true
    ∧ baseState.blocked sampleRec = false
    ∧ baseState.log_url = ""
    ∧ (addListener baseState 1 sampleRec).2.2 = false := by
  refine ⟨by decide, by decide, rfl, by decide⟩

/-- C10 (amended): blocking does not affect storage — `addListener`
produces identical record lists, key sets and added-flags under any two
blocklist configurations; the external log POST is issued iff the
record was newly added, not blocked, and a log endpoint URL is
configured (non-empty); and the badge text for a live selected tab is
the count of its stored non-blocked records. -/
theorem claim10_theorem (s : BgState) (tabId : Int) (r : Listener)
    (bl1 bl2 bu1 bu2 : List String) (cr1 cr2 : List CompiledRegex)
    (hsel : s.selectedId > 0) (hlive : (s.tabUrls s.selectedId).isSome = true) :
    ((addListener (withBlocklists s bl1 bu1 cr1) tabId r).1.tab_listeners
        = (addListener (withBlocklists s bl2 bu2 cr2) tabId r).1.tab_listeners
      ∧ (addListener (withBlocklists s bl1 bu1 cr1) tabId r).1.tab_listener_keys
        = (addListener (withBlocklists s bl2 bu2 cr2) tabId r).1.tab_listener_keys
      ∧ (addListener (withBlocklists s bl1 bu1 cr1) tabId r).2.1
        = (addListener (withBlocklists s bl2 bu2 cr2) tabId r).2.1)
    ∧ ((addListener s tabId r).2.2
        = ((addListener s tabId r).2.1 && (!(s.blocked r) && !(s.log_url == ""))))
    ∧ (refreshCount s).badgeText s.selectedId
        = some (toString ((((s.tab_listeners s.selectedId).getD []).filter
            (fun l => !(s.blocked l))).length)) := by
  refine ⟨?_, ?_, ?_⟩
  · by_cases hext : isFromExtension r.listener r.stack = true
    · refine ⟨?_, ?_, ?_⟩ <;> simp [addListener, withBlocklists, hext]
    · refine ⟨?_, ?_, ?_⟩ <;>
      · cases hln : (s.tab_listeners tabId).isNone <;>
        cases hd : s.dedupeEnabled <;>
        cases hkn : (s.tab_listener_keys tabId).isNone <;>
        by_cases hct : generateListenerKey r ∈ (s.tab_listener_keys tabId).getD [] <;>
        simp [addListener, isDuplicateListener, addListenerKey, withBlocklists,
          keySetAdd, mapSet, hext, hln, hd, hkn, hct]
  · by_cases hext : isFromExtension r.listener r.stack = true
    · simp [addListener, hext]
    · cases hln : (s.tab_listeners tabId).isNone <;>
      cases hd : s.dedupeEnabled <;>
      cases hkn : (s.tab_listener_keys tabId).isNone <;>
      by_cases hct : generateListenerKey r ∈ (s.tab_listener_keys tabId).getD [] <;>
      simp [addListener, isDuplicateListener, addListenerKey, BgState.blocked,
        keySetAdd, mapSet, hext, hln, hd, hkn, hct]
  · simp [refreshCount, hsel, hlive, BgState.blocked]

/-- Witness for C10 at the fresh base state. -/
theorem claim10_witness :
    (addListener baseState 1 sampleRec).2.2
        = ((addListener baseState 1 sampleRec).2.1
            && (!(baseState.blocked sampleRec) && !(baseState.log_url == "")))
    ∧ (refreshCount baseState).badgeText baseState.selectedId
        = some (toString ((((baseState.tab_listeners baseState.selectedId).getD []).filter
            (fun l => !(baseState.blocked l))).length)) := by
  obtain ⟨-, hb, hc⟩ := claim10_theorem baseState 1 sampleRec [] [] [] [] [] []
    (by decide) (by decide)
  exact ⟨hb, hc⟩

/-- The message the content script emits on `History.pushState`. -/
def pushSignal : Listener := { pushState := true }

theorem updateCachedData_tabs (x : BgState) :
    (updateCachedData x).tab_listeners = x.tab_listeners
    ∧ (updateCachedData x).tab_listener_keys = x.tab_listener_keys
    ∧ (updateCachedData x).tab_push = x.tab_push
    ∧ (updateCachedData x).tab_lasturl = x.tab_lasturl := by
  unfold updateCachedData
  split <;> exact ⟨rfl, rfl, rfl, rfl⟩

theorem refreshCount_config (x : BgState) :
    (refreshCount x).tab_push = x.tab_push
    ∧ (refreshCount x).selectedId = x.selectedId
    ∧ (refreshCount x).tabUrls = x.tabUrls := by
  unfold refreshCount
  split
  · split <;> exact ⟨rfl, rfl, rfl⟩
  · exact ⟨rfl, rfl, rfl⟩

theorem refreshCount_keeps (x : BgState) (t : Int)
    (h : t = x.selectedId → (x.tabUrls x.selectedId).isSome = true) :
    (refreshCount x).tab_listeners t = x.tab_listeners t
    ∧ (refreshCount x).tab_listener_keys t = x.tab_listener_keys t
    ∧ (refreshCount x).tab_lasturl t = x.tab_lasturl t := by
  unfold refreshCount
  split
  · split
    · exact ⟨rfl, rfl, rfl⟩
    · next hns =>
      have ht : t ≠ x.selectedId := by
        intro he
        rw [h he] at hns
        exact absurd hns (by simp)
      exact ⟨mapDel_ne _ _ _ ht, mapDel_ne _ _ _ ht, mapDel_ne _ _ _ ht⟩
  · exact ⟨rfl, rfl, rfl⟩

theorem onMessage_pushSignal (s : BgState) (tabId : Int) :
    (onMessage s (some tabId) pushSignal).1
      = refreshCount { s with tab_push := mapSet s.tab_push tabId true } := by
  simp [onMessage, pushSignal, truthyStr]

@[simp] theorem updateCachedData_listeners_eq (x : BgState) :
    (updateCachedData x).tab_listeners = x.tab_listeners := (updateCachedData_tabs x).1

@[simp] theorem updateCachedData_keys_eq (x : BgState) :
    (updateCachedData x).tab_listener_keys = x.tab_listener_keys := (updateCachedData_tabs x).2.1

@[simp] theorem updateCachedData_push_eq (x : BgState) :
    (updateCachedData x).tab_push = x.tab_push := (updateCachedData_tabs x).2.2.1

@[simp] theorem updateCachedData_lasturl_eq (x : BgState) :
    (updateCachedData x).tab_lasturl = x.tab_lasturl := (updateCachedData_tabs x).2.2.2

theorem onUpdated_keeps_records (x : BgState) (tabId : Int) (st : String)
    (hlive2 : tabId = x.selectedId → (x.tabUrls x.selectedId).isSome = true)
    (hpush : st ≠ "complete" → st ≠ "" → (x.tab_push tabId).getD false = true) :
    (onUpdated x tabId (some st)).1.tab_listeners tabId = x.tab_listeners tabId
    ∧ (onUpdated x tabId (some st)).1.tab_listener_keys tabId
        = x.tab_listener_keys tabId := by
  by_cases hcomp : st = "complete"
  · subst hcomp
    by_cases hts : tabId = x.selectedId
    · have hk := refreshCount_keeps x tabId (fun _ => hlive2 hts)
      rw [hts] at hk
      simp only [onUpdated, hts]
      simp [hk.1, hk.2.1]
    · simp [onUpdated, hts]
  · by_cases hemp : st = ""
    · subst hemp
      simp [onUpdated, truthyStr]
    · have hp := hpush hcomp hemp
      by_cases hld : st = "loading"
      · subst hld
        simp [onUpdated, truthyStr, hp]
      · simp [onUpdated, truthyStr, hcomp, hemp, hld, hp]

theorem onUpdated_consumes_push (x : BgState) (tabId : Int) (st : String)
    (hne : st ≠ "") (hnc : st ≠ "complete")
    (hpush : (x.tab_push tabId).getD false = true) :
    (onUpdated x tabId (some st)).1.tab_push tabId = none := by
  by_cases hld : st = "loading"
  · subst hld
    simp [onUpdated, truthyStr, hpush]
  · simp [onUpdated, truthyStr, hne, hnc, hld, hpush]

theorem onUpdated_clears (x : BgState) (tabId : Int) (st : String)
    (hne : st ≠ "") (hnc : st ≠ "complete")
    (hpush : (x.tab_push tabId).getD false = false)
    (hlast : (x.tab_lasturl tabId).getD false = false) :
    (onUpdated x tabId (some st)).1.tab_listeners tabId = some []
    ∧ ((onUpdated x tabId (some st)).1.tab_listener_keys tabId).getD [] = [] := by
  by_cases hks : (x.tab_listener_keys tabId).isSome = true
  · by_cases hld : st = "loading"
    · subst hld
      by_cases hhad : (x.tab_listeners tabId).getD [] = [] <;>
        simp [onUpdated, truthyStr, hpush, hlast, clearListeners, notifyPopups, hks,
          hhad, mapSet]
    · by_cases hhad : (x.tab_listeners tabId).getD [] = [] <;>
        simp [onUpdated, truthyStr, hne, hnc, hld, hpush, hlast, clearListeners,
          notifyPopups, hks, hhad, mapSet]
  · have hknone : x.tab_listener_keys tabId = none := by
      cases hv : x.tab_listener_keys tabId
      · rfl
      · rw [hv] at hks; exact absurd rfl hks
    by_cases hld : st = "loading"
    · subst hld
      by_cases hhad : (x.tab_listeners tabId).getD [] = [] <;>
        simp [onUpdated, truthyStr, hpush, hlast, clearListeners, notifyPopups, hks,
          hknone, hhad, mapSet]
    · by_cases hhad : (x.tab_listeners tabId).getD [] = [] <;>
        simp [onUpdated, truthyStr, hne, hnc, hld, hpush, hlast, clearListeners,
          notifyPopups, hks, hknone, hhad, mapSet]

/-- C3: a history-push signal followed immediately by the next status
transition for that tab leaves the tab's records and key set untouched;
when the transition is a clearing-capable one (truthy, non-`complete`)
it consumes the one-shot push flag instead; and a truthy non-`complete`
status transition with no pending push flag and no "already loading"
flag clears the tab's records and key set. -/
theorem claim3_theorem (s : BgState) (tabId : Int) (st : String)
    (hlive : (s.tabUrls tabId).isSome = true) :
    ((onUpdated (onMessage s (some tabId) pushSignal).1 tabId
          (some st)).1.tab_listeners tabId
        = (onMessage s (some tabId) pushSignal).1.tab_listeners tabId
      ∧ (onUpdated (onMessage s (some tabId) pushSignal).1 tabId
            (some st)).1.tab_listener_keys tabId
        = (onMessage s (some tabId) pushSignal).1.tab_listener_keys tabId)
    ∧ (st ≠ "" → st ≠ "complete" →
        (onUpdated (onMessage s (some tabId) pushSignal).1 tabId
            (some st)).1.tab_push tabId = none)
    ∧ (∀ st2 : String, st2 ≠ "" → st2 ≠ "complete" →
        (s.tab_push tabId).getD false = false →
        (s.tab_lasturl tabId).getD false = false →
        ((onUpdated s tabId (some st2)).1.tab_listeners tabId = some []
          ∧ ((onUpdated s tabId (some st2)).1.tab_listener_keys tabId).getD [] = [])) := by
  have hmsg := onMessage_pushSignal s tabId
  have hcfg := refreshCount_config { s with tab_push := mapSet s.tab_push tabId true }
  have hpush1 : (onMessage s (some tabId) pushSignal).1.tab_push tabId = some true := by
    rw [hmsg, hcfg.1]
    exact mapSet_self _ _ _
  have hsel1 : (onMessage s (some tabId) pushSignal).1.selectedId = s.selectedId := by
    rw [hmsg, hcfg.2.1]
  have htu1 : (onMessage s (some tabId) pushSignal).1.tabUrls = s.tabUrls := by
    rw [hmsg, hcfg.2.2]
  refine ⟨?_, ?_, ?_⟩
  · exact onUpdated_keeps_records _ tabId st
      (fun hts => by rw [htu1, ← hts]; exact hlive)
      (fun _ _ => by rw [hpush1]; rfl)
  · intro hne hnc
    exact onUpdated_consumes_push _ tabId st hne hnc (by rw [hpush1]; rfl)
  · intro st2 hne hnc hp hl
    exact onUpdated_clears s tabId st2 hne hnc hp hl

/-- A state where tab 1 already stores the scenario record. -/
def populatedState : BgState := (addListener baseState 1 sampleRec).1

/-- Witness for C3 on a populated tab with the `"loading"` status. -/
theorem claim3_witness :
    ((onUpdated (onMessage populatedState (some 1) pushSignal).1 1
          (some "loading")).1.tab_listeners 1
        = (onMessage populatedState (some 1) pushSignal).1.tab_listeners 1)
    ∧ (onUpdated (onMessage populatedState (some 1) pushSignal).1 1
          (some "loading")).1.tab_push 1 = none
    ∧ (onUpdated populatedState 1 (some "loading")).1.tab_listeners 1 = some [] := by
  obtain ⟨h1, h2, h3⟩ := claim3_theorem populatedState 1 "loading" (by decide)
  exact ⟨h1.1, h2 (by decide) (by decide),
    (h3 "loading" (by decide) (by decide) (by decide) (by decide)).1⟩

theorem mem_takeWhile_and {α : Type} {p : α → Bool} {l : List α} {a : α}
    (h : a ∈ l.takeWhile p) : a ∈ l ∧ p a = true := by
  induction l with
  | nil => simp at h
  | cons b bs ih =>
    by_cases hb : p b = true
    · rw [List.takeWhile_cons, if_pos hb] at h
      rcases List.mem_cons.mp h with hba | h2
      · subst hba
        exact ⟨List.mem_cons_self _ _, hb⟩
      · obtain ⟨h3, h4⟩ := ih h2
        exact ⟨List.mem_cons_of_mem _ h3, h4⟩
    · rw [List.takeWhile_cons, if_neg hb] at h
      simp at h

theorem takeWhile_all_eq {α : Type} {p : α → Bool} {l : List α}
    (h : ∀ a ∈ l, p a = true) : l.takeWhile p = l := by
  induction l with
  | nil => rfl
  | cons b bs ih =>
    rw [List.takeWhile_cons, if_pos (h b (List.mem_cons_self _ _)),
      ih (fun a ha => h a (List.mem_cons_of_mem _ ha))]

theorem takeWhile_append_all {α : Type} {p : α → Bool} {l1 l2 : List α}
    (h : ∀ a ∈ l1, p a = true) :
    (l1 ++ l2).takeWhile p = l1 ++ l2.takeWhile p := by
  induction l1 with
  | nil => simp
  | cons b bs ih =>
    rw [List.cons_append, List.takeWhile_cons, if_pos (h b (List.mem_cons_self _ _)),
      ih (fun a ha => h a (List.mem_cons_of_mem _ ha)), List.cons_append]

theorem dropWhile_append_all {α : Type} {p : α → Bool} {l1 l2 : List α}
    (h : ∀ a ∈ l1, p a = true) :
    (l1 ++ l2).dropWhile p = l2.dropWhile p := by
  induction l1 with
  | nil => simp
  | cons b bs ih =>
    rw [List.cons_append, List.dropWhile_cons, if_pos (h b (List.mem_cons_self _ _)),
      ih (fun a ha => h a (List.mem_cons_of_mem _ ha))]

theorem takeWhile_takeWhile' {α : Type} (p q : α → Bool) (l : List α) :
    (l.takeWhile q).takeWhile p = l.takeWhile (fun a => q a && p a) := by
  induction l with
  | nil => rfl
  | cons b bs ih =>
    cases hq : q b <;> cases hp : p b <;>
      simp [List.takeWhile_cons, hq, hp, ih]

theorem listStarts_append_self (pre rest : List Char) :
    listStarts pre (pre ++ rest) = true := by
  induction pre with
  | nil => rfl
  | cons a as ih => simp [listStarts, ih]

theorem listStarts_of_takeWhile {pre l : List Char} {p : Char → Bool}
    (h : listStarts pre (l.takeWhile p) = true) : listStarts pre l = true := by
  induction pre generalizing l with
  | nil => rfl
  | cons a as ih =>
    cases l with
    | nil => simpa using h
    | cons b bs =>
      by_cases hb : p b = true
      · rw [List.takeWhile_cons, if_pos hb] at h
        simp only [listStarts, Bool.and_eq_true] at h ⊢
        exact ⟨h.1, ih h.2⟩
      · rw [List.takeWhile_cons, if_neg hb] at h
        simp [listStarts] at h

theorem listStarts_decomp {pre l : List Char} (h : listStarts pre l = true) :
    l = pre ++ l.drop pre.length := by
  induction pre generalizing l with
  | nil => simp
  | cons a as ih =>
    cases l with
    | nil => simp [listStarts] at h
    | cons b bs =>
      simp only [listStarts, Bool.and_eq_true, beq_iff_eq] at h
      obtain ⟨hab, h2⟩ := h
      subst hab
      simp only [List.length_cons, List.drop_succ_cons, List.cons_append, List.cons.injEq,
        true_and]
      exact ih h2

theorem dropWhile_head_pred {α : Type} {p : α → Bool} {l : List α} {b : α} {r : List α}
    (h : l.dropWhile p = b :: r) : p b = false := by
  induction l with
  | nil => simp at h
  | cons c cs ih =>
    by_cases hc : p c = true
    · rw [List.dropWhile_cons, if_pos hc] at h
      exact ih h
    · rw [List.dropWhile_cons, if_neg hc] at h
      injection h with h1 h2
      subst h1
      simpa using hc

theorem takeWhile_cons_inv {α : Type} {p : α → Bool} {l : List α} {b : α} {r : List α}
    (h : l.takeWhile p = b :: r) : p b = true ∧ ∃ tl, l = b :: tl := by
  cases l with
  | nil => simp at h
  | cons c cs =>
    by_cases hc : p c = true
    · rw [List.takeWhile_cons, if_pos hc] at h
      injection h with h1 h2
      subst h1
      exact ⟨hc, cs, rfl⟩
    · rw [List.takeWhile_cons, if_neg hc] at h
      simp at h

theorem data_append (a b : String) : (a ++ b).data = a.data ++ b.data := by
  cases a
  cases b
  rfl

theorem urlHost_mem {rest : List Char} {c : Char} (h : c ∈ urlHost rest) :
    isAuthEnd c = false ∧ (c == ':') = false ∧ (c == '@') = false := by
  unfold urlHost at h
  obtain ⟨h1, hcolon⟩ := mem_takeWhile_and h
  have h2 := List.mem_reverse.mp h1
  obtain ⟨h3, hat⟩ := mem_takeWhile_and h2
  have h4 : c ∈ rest.takeWhile (fun c => !(isAuthEnd c)) := List.mem_reverse.mp h3
  obtain ⟨-, hauth⟩ := mem_takeWhile_and h4
  exact ⟨by simpa using hauth, by simpa using hcolon, by simpa using hat⟩

theorem parseAfterScheme_parts {proto : String} {rest : List Char} {p h pa : String}
    (hp : parseAfterScheme proto rest = some (p, h, pa)) :
    p = proto ∧ h = String.mk (urlHost rest) ∧ pa = String.mk (urlPath rest)
    ∧ (urlHost rest).isEmpty = false := by
  unfold parseAfterScheme at hp
  split at hp
  · exact absurd hp (by simp)
  · next hne =>
    simp only [Option.some.injEq, Prod.mk.injEq] at hp
    obtain ⟨h1, h2, h3⟩ := hp
    refine ⟨h1.symm, h2.symm, h3.symm, ?_⟩
    cases hv : (urlHost rest).isEmpty
    · rfl
    · exact absurd hv hne

theorem urlPath_head (rest : List Char) : ∃ tl, urlPath rest = '/' :: tl := by
  unfold urlPath
  by_cases he : ((urlTail rest).takeWhile (fun c => !(c == '?') && !(c == '#'))).isEmpty = true
  · rw [if_pos he]
    exact ⟨[], rfl⟩
  · rw [if_neg he]
    cases hw : (urlTail rest).takeWhile (fun c => !(c == '?') && !(c == '#')) with
    | nil => rw [hw] at he; exact absurd rfl he
    | cons b r =>
      obtain ⟨hpb, tl, htl⟩ := takeWhile_cons_inv hw
      have htl' : rest.dropWhile (fun c => !(isAuthEnd c)) = b :: tl := htl
      have hb : (!(isAuthEnd b)) = false :=
        dropWhile_head_pred (p := fun c => !(isAuthEnd c)) htl'
      have hbe : isAuthEnd b = true := by simpa using hb
      have hq : (b == '?') = false ∧ (b == '#') = false := by
        constructor
        · cases hv : (b == '?')
          · rfl
          · rw [hv] at hpb; simp at hpb
        · cases hv : (b == '#')
          · rfl
          · rw [hv] at hpb; simp at hpb
      have hslash : b = '/' := by
        unfold isAuthEnd at hbe
        rw [hq.1, hq.2] at hbe
        simpa using hbe
      exact ⟨r, by rw [hslash]⟩

theorem urlPath_mem {rest : List Char} {c : Char} (h : c ∈ urlPath rest) :
    (c == '?') = false ∧ (c == '#') = false := by
  unfold urlPath at h
  split at h
  · have : c = '/' := by simpa using h
    subst this
    exact ⟨rfl, rfl⟩
  · obtain ⟨-, hp⟩ := mem_takeWhile_and h
    constructor
    · cases hv : (c == '?')
      · rfl
      · rw [hv] at hp; simp at hp
    · cases hv : (c == '#')
      · rfl
      · rw [hv] at hp; simp at hp

theorem parseAfterScheme_roundtrip {proto : String} {rest : List Char} {p h pa : String}
    (hp : parseAfterScheme proto rest = some (p, h, pa)) :
    parseAfterScheme proto (h.data ++ pa.data) = some (p, h, pa) ∧ h.data ≠ [] := by
  obtain ⟨hpp, hh, hpa, hne⟩ := parseAfterScheme_parts hp
  have hhd : h.data = urlHost rest := by rw [hh]
  have hpad : pa.data = urlPath rest := by rw [hpa]
  have hhostmem : ∀ c ∈ h.data, (fun c => !(isAuthEnd c)) c = true := by
    intro c hc
    rw [hhd] at hc
    have := (urlHost_mem hc).1
    simp [this]
  obtain ⟨tl, htl⟩ := urlPath_head rest
  have hpath : pa.data = '/' :: tl := by rw [hpad, htl]
  have hauth : urlAuth (h.data ++ pa.data) = h.data := by
    unfold urlAuth
    rw [takeWhile_append_all hhostmem, hpath]
    rw [List.takeWhile_cons, if_neg (by simp [isAuthEnd])]
    simp
  have htail : urlTail (h.data ++ pa.data) = pa.data := by
    unfold urlTail
    rw [dropWhile_append_all hhostmem, hpath]
    rw [List.dropWhile_cons, if_neg (by simp [isAuthEnd])]
  have hhost : urlHost (h.data ++ pa.data) = h.data := by
    unfold urlHost
    rw [hauth]
    have s1 : h.data.reverse.takeWhile (fun c => !(c == '@')) = h.data.reverse :=
      takeWhile_all_eq (by
        intro a ha
        have ha2 : a ∈ urlHost rest := hhd ▸ List.mem_reverse.mp ha
        simp [(urlHost_mem ha2).2.2])
    rw [s1, List.reverse_reverse]
    exact takeWhile_all_eq (by
      intro a ha
      have ha2 : a ∈ urlHost rest := hhd ▸ ha
      simp [(urlHost_mem ha2).2.1])
  have hpathmem : ∀ c ∈ pa.data, (fun c => !(c == '?') && !(c == '#')) c = true := by
    intro c hc
    rw [hpad] at hc
    have := urlPath_mem hc
    simp [this.1, this.2]
  have hpath2 : urlPath (h.data ++ pa.data) = pa.data := by
    unfold urlPath
    rw [htail, takeWhile_all_eq hpathmem]
    rw [if_neg (by rw [hpath]; simp)]
  have hdne : h.data ≠ [] := by
    rw [hhd]
    intro hcon
    rw [hcon] at hne
    simp at hne
  refine ⟨?_, hdne⟩
  unfold parseAfterScheme
  rw [hhost, hpath2]
  rw [if_neg (by
    cases hv : h.data.isEmpty
    · simp
    · exact absurd (List.isEmpty_iff.mp hv) hdne)]
  have e1 : String.mk h.data = h := by cases h; rfl
  have e2 : String.mk pa.data = pa := by cases pa; rfl
  rw [e1, e2, hpp]

theorem httpsChars_eq : httpsSchemeChars = ['h', 't', 't', 'p', 's', ':', '/', '/'] := by
  decide

theorem httpChars_eq : httpSchemeChars = ['h', 't', 't', 'p', ':', '/', '/'] := by
  decide

theorem listStarts_https_of_http (rest : List Char) :
    listStarts httpsSchemeChars (httpSchemeChars ++ rest) = false := by
  rw [httpsChars_eq, httpChars_eq]
  simp +decide [listStarts]

theorem render_data (p h pa : String) :
    (p ++ "//" ++ h ++ pa).data = (p.data ++ "//".data) ++ (h.data ++ pa.data) := by
  rw [data_append, data_append, data_append, List.append_assoc]

theorem https_data : ("https:".data ++ "//".data : List Char) = httpsSchemeChars := by
  decide

theorem http_data : ("http:".data ++ "//".data : List Char) = httpSchemeChars := by
  decide

theorem parseHttpUrl_roundtrip {url p h pa : String}
    (hp : parseHttpUrl url = some (p, h, pa)) :
    parseHttpUrl (p ++ "//" ++ h ++ pa) = some (p, h, pa)
    ∧ p ++ "//" ++ h ++ pa ≠ ""
    ∧ (listStarts httpsSchemeChars (p ++ "//" ++ h ++ pa).data = true
        ∨ listStarts httpSchemeChars (p ++ "//" ++ h ++ pa).data = true) := by
  unfold parseHttpUrl at hp
  by_cases h1 : listStarts httpsSchemeChars url.data = true
  · rw [if_pos h1] at hp
    obtain ⟨hrt, hdne⟩ := parseAfterScheme_roundtrip hp
    have hpp : p = "https:" := (parseAfterScheme_parts hp).1
    subst hpp
    have hdata : ("https:" ++ "//" ++ h ++ pa).data
        = httpsSchemeChars ++ (h.data ++ pa.data) := by
      rw [render_data, https_data]
    refine ⟨?_, ?_, ?_⟩
    · unfold parseHttpUrl
      rw [hdata, if_pos (listStarts_append_self _ _)]
      have hlen : (8 : Nat) = httpsSchemeChars.length := by decide
      rw [hlen, List.drop_left]
      exact hrt
    · intro hcon
      have hd0 : ("https:" ++ "//" ++ h ++ pa).data = [] := by rw [hcon]
      rw [hdata] at hd0
      simp [httpsChars_eq] at hd0
    · exact Or.inl (by rw [hdata]; exact listStarts_append_self _ _)
  · rw [if_neg h1] at hp
    by_cases h2 : listStarts httpSchemeChars url.data = true
    · rw [if_pos h2] at hp
      obtain ⟨hrt, hdne⟩ := parseAfterScheme_roundtrip hp
      have hpp : p = "http:" := (parseAfterScheme_parts hp).1
      subst hpp
      have hdata : ("http:" ++ "//" ++ h ++ pa).data
          = httpSchemeChars ++ (h.data ++ pa.data) := by
        rw [render_data, http_data]
      refine ⟨?_, ?_, ?_⟩
      · unfold parseHttpUrl
        rw [hdata, if_neg (by simp [listStarts_https_of_http]),
          if_pos (listStarts_append_self _ _)]
        have hlen : (7 : Nat) = httpSchemeChars.length := by decide
        rw [hlen, List.drop_left]
        exact hrt
      · intro hcon
        have hd0 : ("http:" ++ "//" ++ h ++ pa).data = [] := by rw [hcon]
        rw [hdata] at hd0
        simp [httpChars_eq] at hd0
      · exact Or.inr (by rw [hdata]; exact listStarts_append_self _ _)
    · rw [if_neg h2] at hp
      exact absurd hp (by simp)

theorem pq_and_authEnd (c : Char) :
    ((!(c == '?') && !(c == '#')) && !(isAuthEnd c)) = !(isAuthEnd c) := by
  by_cases h1 : c = '?'
  · subst h1; rfl
  · by_cases h2 : c = '#'
    · subst h2; rfl
    · have e1 : (c == '?') = false := by simp [h1]
      have e2 : (c == '#') = false := by simp [h2]
      rw [e1, e2]
      rfl

theorem stripQueryHash_eq (l : List Char) :
    stripQueryHash l = l.takeWhile (fun c => !(c == '?') && !(c == '#')) := by
  unfold stripQueryHash
  exact takeWhile_takeWhile' (fun c => !(c == '#')) (fun c => !(c == '?')) l

theorem stripQueryHash_mem {l : List Char} {a : Char} (h : a ∈ stripQueryHash l) :
    (!(a == '?')) = true ∧ (!(a == '#')) = true := by
  rw [stripQueryHash_eq] at h
  obtain ⟨-, hp⟩ := mem_takeWhile_and h
  constructor
  · cases hv : (a == '?')
    · rfl
    · rw [hv] at hp; simp at hp
  · cases hv : (a == '#')
    · rfl
    · rw [hv] at hp; simp at hp

theorem stripQueryHash_of_clean {t : List Char}
    (h : ∀ a ∈ t, ((!(a == '?')) = true ∧ (!(a == '#')) = true)) :
    stripQueryHash t = t := by
  unfold stripQueryHash
  rw [takeWhile_all_eq (fun a ha => (h a ha).1)]
  exact takeWhile_all_eq (fun a ha => (h a ha).2)

theorem stripQueryHash_idem (l : List Char) :
    stripQueryHash (stripQueryHash l) = stripQueryHash l :=
  stripQueryHash_of_clean (fun _ ha => stripQueryHash_mem ha)

theorem urlAuth_strip (r : List Char) :
    urlAuth (r.takeWhile (fun c => !(c == '?') && !(c == '#'))) = urlAuth r := by
  unfold urlAuth
  rw [takeWhile_takeWhile']
  congr 1
  funext a
  exact pq_and_authEnd a

theorem parseAfterScheme_none_strip (proto : String) {r : List Char}
    (hn : parseAfterScheme proto r = none) :
    parseAfterScheme proto (r.takeWhile (fun c => !(c == '?') && !(c == '#'))) = none := by
  unfold parseAfterScheme at hn ⊢
  have hh : urlHost (r.takeWhile (fun c => !(c == '?') && !(c == '#'))) = urlHost r := by
    unfold urlHost
    rw [urlAuth_strip]
  rw [hh]
  split at hn
  · next he => rw [if_pos he]
  · exact absurd hn (by simp)

theorem parseHttpUrl_none_strip {url : String} (hn : parseHttpUrl url = none) :
    parseHttpUrl (String.mk (stripQueryHash url.data)) = none := by
  have hdq : (String.mk (stripQueryHash url.data)).data
      = url.data.takeWhile (fun c => !(c == '?') && !(c == '#')) := stripQueryHash_eq _
  unfold parseHttpUrl at hn ⊢
  rw [hdq]
  by_cases h1 : listStarts httpsSchemeChars url.data = true
  · rw [if_pos h1] at hn
    have hdec := listStarts_decomp h1
    have hscq : ∀ a ∈ httpsSchemeChars,
        (fun c => !(c == '?') && !(c == '#')) a = true := by decide
    have htw : url.data.takeWhile (fun c => !(c == '?') && !(c == '#'))
        = httpsSchemeChars
          ++ (url.data.drop httpsSchemeChars.length).takeWhile
              (fun c => !(c == '?') && !(c == '#')) := by
      conv_lhs => rw [hdec]
      exact takeWhile_append_all hscq
    rw [htw, if_pos (listStarts_append_self _ _)]
    have hlen : (8 : Nat) = httpsSchemeChars.length := by decide
    rw [hlen, List.drop_left]
    apply parseAfterScheme_none_strip
    rw [← hlen]
    exact hn
  · rw [if_neg h1] at hn
    have h1t : ¬ listStarts httpsSchemeChars
        (url.data.takeWhile (fun c => !(c == '?') && !(c == '#'))) = true :=
      fun hcon => h1 (listStarts_of_takeWhile hcon)
    rw [if_neg h1t]
    by_cases h2 : listStarts httpSchemeChars url.data = true
    · rw [if_pos h2] at hn
      have hdec := listStarts_decomp h2
      have hscq : ∀ a ∈ httpSchemeChars,
          (fun c => !(c == '?') && !(c == '#')) a = true := by decide
      have htw : url.data.takeWhile (fun c => !(c == '?') && !(c == '#'))
          = httpSchemeChars
            ++ (url.data.drop httpSchemeChars.length).takeWhile
                (fun c => !(c == '?') && !(c == '#')) := by
        conv_lhs => rw [hdec]
        exact takeWhile_append_all hscq
      rw [htw, if_pos (listStarts_append_self _ _)]
      have hlen : (7 : Nat) = httpSchemeChars.length := by decide
      rw [hlen, List.drop_left]
      apply parseAfterScheme_none_strip
      rw [← hlen]
      exact hn
    · rw [if_neg h2] at hn
      have h2t : ¬ listStarts httpSchemeChars
          (url.data.takeWhile (fun c => !(c == '?') && !(c == '#'))) = true :=
        fun hcon => h2 (listStarts_of_takeWhile hcon)
      rw [if_neg h2t]

theorem ne_empty_of_listStarts {url : String} {pre : List Char} (hne : pre ≠ [])
    (h : listStarts pre url.data = true) : url ≠ "" := by
  intro h0
  subst h0
  cases pre with
  | nil => exact hne rfl
  | cons a as => simp [listStarts] at h

theorem strip_keeps_scheme {url : String} {pre : List Char}
    (hq : ∀ a ∈ pre, (fun c => !(c == '?') && !(c == '#')) a = true)
    (h : listStarts pre url.data = true) :
    listStarts pre (String.mk (stripQueryHash url.data)).data = true := by
  have hdec := listStarts_decomp h
  show listStarts pre (stripQueryHash url.data) = true
  rw [stripQueryHash_eq]
  conv_lhs => rw [hdec]
  rw [takeWhile_append_all hq]
  exact listStarts_append_self _ _

theorem parseJsUrl_of_http {url : String}
    (h : listStarts httpsSchemeChars url.data = true
        ∨ listStarts httpSchemeChars url.data = true) :
    parseJsUrl url = parseHttpUrl url := by
  unfold parseJsUrl
  rcases h with h | h
  · rw [h]
    rfl
  · rw [h]
    simp

/-- C6 counterexample: on a parseable non-http(s) URL `cleanUrl` is not
idempotent — `new URL("mailto:x@y.z")` has protocol `mailto:`, empty
hostname and opaque pathname `x@y.z`, so cleaning yields
`mailto://x@y.z`; re-cleaning parses `x@y.z` as an authority, drops the
userinfo `x`, and yields `mailto://y.z`. -/
theorem claim6_counterexample :
    cleanUrl "mailto:x@y.z" = "mailto://x@y.z"
    ∧ cleanUrl (cleanUrl "mailto:x@y.z") = "mailto://y.z"
    ∧ cleanUrl (cleanUrl "mailto:x@y.z") ≠ cleanUrl "mailto:x@y.z" := by
  refine ⟨by decide, by decide, by decide⟩

/-- C6 (amended): `cleanUrl` is idempotent on every URL that begins
with `http://` or `https://` — a parseable one is rebuilt into a form
that reparses to the same components, and the textual fallback removes
every `?` and `#` so a second pass leaves it unchanged — and it strips
the query string and fragment from a parseable URL. -/
theorem claim6_theorem :
    (∀ url : String,
        listStarts httpsSchemeChars url.data = true
          ∨ listStarts httpSchemeChars url.data = true →
        cleanUrl (cleanUrl url) = cleanUrl url)
    ∧ cleanUrl "https://a.com/x.js?v=1#f" = "https://a.com/x.js" := by
  refine ⟨?_, by decide⟩
  intro url hpre
  have hne8 : httpsSchemeChars ≠ [] := by decide
  have hne7 : httpSchemeChars ≠ [] := by decide
  have h0 : url ≠ "" := by
    rcases hpre with h | h
    · exact ne_empty_of_listStarts hne8 h
    · exact ne_empty_of_listStarts hne7 h
  have hjs : parseJsUrl url = parseHttpUrl url := parseJsUrl_of_http hpre
  cases hp : parseHttpUrl url with
  | some t =>
    obtain ⟨p, h, pa⟩ := t
    obtain ⟨hrt, hne, hpreR⟩ := parseHttpUrl_roundtrip hp
    have h1 : cleanUrl url = p ++ "//" ++ h ++ pa := by
      unfold cleanUrl
      rw [if_neg h0, hjs, hp]
    rw [h1]
    unfold cleanUrl
    rw [if_neg hne, parseJsUrl_of_http hpreR, hrt]
  | none =>
    have h1 : cleanUrl url = String.mk (stripQueryHash url.data) := by
      unfold cleanUrl
      rw [if_neg h0, hjs, hp]
    rw [h1]
    have hpres : listStarts httpsSchemeChars (String.mk (stripQueryHash url.data)).data
          = true
        ∨ listStarts httpSchemeChars (String.mk (stripQueryHash url.data)).data = true := by
      rcases hpre with h | h
      · exact Or.inl (strip_keeps_scheme (by decide) h)
      · exact Or.inr (strip_keeps_scheme (by decide) h)
    have ht0 : String.mk (stripQueryHash url.data) ≠ "" := by
      rcases hpres with h | h
      · exact ne_empty_of_listStarts hne8 h
      · exact ne_empty_of_listStarts hne7 h
    have hpn := parseHttpUrl_none_strip hp
    unfold cleanUrl
    rw [if_neg ht0, parseJsUrl_of_http hpres, hpn]
    have hdq : (String.mk (stripQueryHash url.data)).data = stripQueryHash url.data :=
      rfl
    rw [hdq, stripQueryHash_idem]

/-- Witness for C2: the scenario key evaluated through the theorem. -/
theorem claim2_witness :
    generateListenerKey sampleRec
      = "https://cdn.example.com/a.js|top|example.com|function(e)\x7bconsole.log(e)\x7d" :=
  claim2_theorem.2.2.1

/-- Witness for C5: the case-insensitive scenario evaluated through the
theorem. -/
theorem claim5_witness :
    isListenerBlocked [] [] (compileRegexPatterns ["eval"])
      { listener := some "function(e)\x7bEVAL(e.data)\x7d" } = true :=
  (claim5_theorem [] [] ["eval"]
    { listener := some "function(e)\x7bEVAL(e.data)\x7d" }).2.1

/-- Witness for C6: idempotence evaluated at the scenario URL, which
begins with `https://`. -/
theorem claim6_witness :
    cleanUrl (cleanUrl "https://a.com/x.js?v=1#f")
      = cleanUrl "https://a.com/x.js?v=1#f" :=
  claim6_theorem.1 "https://a.com/x.js?v=1#f" (Or.inl (by decide))
